import Mathlib

/-!
Shallow embedding of `smtpdane-mtasts-lookup.py`: the per-domain DNS lookup
pipeline (MX resolution, DANE/TLSA lookup, MTA-STS lookup, domain evaluation).

The DNS resolver is an external collaborator; it is modelled as an oracle.
A resolver call either succeeds with an answer or raises one of the
`dns.resolver` exception classes, modelled by `ExcKind` plus a message
(`str(e)` in Python).  The four exception classes caught by the script's
`except (NoAnswer, NXDOMAIN, NoNameservers, LifetimeTimeout)` clauses are the
"benign" kinds; any other resolver exception propagates, which is modelled by
the lookups returning `Except DnsError`.
-/

namespace SmtpDane

/-- The resolver exception classes relevant to the script: the four caught
kinds plus `other` standing for any other `dns.resolver` failure. -/
inductive ExcKind where
  | noAnswer
  | nxdomain
  | noNameservers
  | lifetimeTimeout
  | other
deriving DecidableEq, Repr

/-- Whether the exception class is one of the four listed in the script's
`except (dns.resolver.NoAnswer, dns.resolver.NXDOMAIN, dns.resolver.NoNameservers,
dns.resolver.LifetimeTimeout)` clauses. -/
def ExcKind.benign : ExcKind → Bool
  | .noAnswer => true
  | .nxdomain => true
  | .noNameservers => true
  | .lifetimeTimeout => true
  | .other => false

/-- A resolver exception: its class and its `str(e)` text. -/
structure DnsError where
  kind : ExcKind
  msg : String
deriving DecidableEq, Repr

/-- One MX record of an answer: `r.preference` and the unicode text of
`r.exchange` (`r.exchange.to_unicode()`). -/
structure MxRecord where
  preference : Nat
  exchange : String
deriving DecidableEq, Repr

/-- Outcome of `resolver.resolve(domain, "MX")`: an answer (its records, and
whether the AD flag is set on the response, `answer.response.flags & dns.flags.AD`)
or an exception. -/
inductive MxOutcome where
  | success (records : List MxRecord) (adFlag : Bool)
  | failure (e : DnsError)
deriving DecidableEq, Repr

/-- Outcome of `resolver.resolve(name, "TLSA")`: the textual presentation
`str(r)` of each answer record, or an exception. -/
inductive TlsaOutcome where
  | success (records : List String)
  | failure (e : DnsError)
deriving DecidableEq, Repr

/-- Outcome of `resolver.resolve(name, "TXT")`: for each answer record the
decoded character-string segments `r.strings` (RFC 1035), or an exception. -/
inductive TxtOutcome where
  | success (records : List (List String))
  | failure (e : DnsError)
deriving DecidableEq, Repr

/-- Python's `str.lower`, as used on DNS names: per-character case folding
(ASCII folding via `Char.toLower` suffices for the names involved). -/
def pyLower (s : String) : String :=
  ⟨s.data.map Char.toLower⟩

/-- Python's `<=` on strings restricted to their character lists: code-point
lexicographic order. -/
def strLe : List Char → List Char → Bool
  | [], _ => true
  | _ :: _, [] => false
  | a :: s, b :: t => if a < b then true else if b < a then false else strLe s t

/-- Python's `<=` on strings: code-point lexicographic order. -/
def pyLe (s t : String) : Bool :=
  strLe s.data t.data

/-- Python's `str.startswith`. -/
def pyStartswith (s pre : String) : Bool :=
  pre.data.isPrefixOf s.data

/-- Function `validmx` (lines 23-33): `False` for MX values that do not represent an
SMTP server — `.` (RFC 7505 null MX), `0.0.0.0.` and `localhost.`. -/
def validmx (mx : String) : Bool :=
  match mx with
  | "." | "0.0.0.0." | "localhost." => false
  | _ => true

/-- The sort key of line 51: `r.exchange.to_unicode().lower()`, compared with
Python's string order. -/
def leName (r s : MxRecord) : Bool :=
  pyLe (pyLower r.exchange) (pyLower s.exchange)

/-- The sort key of line 53: `r.preference`. -/
def lePref (r s : MxRecord) : Bool :=
  decide (r.preference ≤ s.preference)

/-- Lines 50-53 of `lookupmx`: `sorted` by exchange name, then (stably)
`sorted` by preference.  Python's `sorted` is a stable sort, as is
`List.mergeSort`. -/
def sortRecords (ans : List MxRecord) : List MxRecord :=
  (ans.mergeSort leName).mergeSort lePref

/-- Function `lookupmx` (lines 35-62) as a function of the resolver outcome. -/
def lookupmx (o : MxOutcome) : Except DnsError (List String × Bool × String) :=
  match o with
  | .success ans ad =>
      let records := sortRecords ans
      let mxsunfiltered := records.map (fun r => pyLower r.exchange)
      let mxs := mxsunfiltered.filter validmx
      let error :=
        if mxs.length = 0 then "no valid MX: " ++ String.intercalate (", ") mxsunfiltered
        else ""
      .ok (mxs, ad, error)
  | .failure e =>
      if e.kind.benign then .ok ([], false, e.msg) else .error e

/-- The query name of line 74: `f"_{port}._tcp.{domain}"`. -/
def tlsaQname (port : Nat) (domain : String) : String :=
  "_" ++ toString port ++ "._tcp." ++ domain

/-- Function `lookuptlsa` (lines 64-79) as a function of a TLSA-query oracle keyed by
the query name. -/
def lookuptlsa (env : String → TlsaOutcome) (domain : String) (port : Nat)
    (delimiter : String) : Except DnsError (Nat × String) :=
  match env (tlsaQname port domain) with
  | .success ans => .ok (1, String.intercalate delimiter ans)
  | .failure e =>
      if e.kind.benign then .ok (0, e.msg) else .error e

/-- Function `indicator` (lines 81-86). -/
def indicator (b : Bool) : Nat :=
  if b then 1 else 0

/-- Function `is_sts` (lines 88-92): `txt.lower().startswith('v=stsv1')`. -/
def is_sts (txt : String) : Bool :=
  pyStartswith (pyLower txt) "v=stsv1"

/-- The query name of line 101: `"_mta-sts." + domain`. -/
def stsQname (domain : String) : String :=
  "_mta-sts." ++ domain

/-- Function `lookupsts` (lines 94-108) as a function of a TXT-query oracle keyed by the
query name.  `b''.join(r.strings).decode()` is modelled by `String.join` on the
decoded segments; `indicator(len(txts))` tests Python truthiness of the
length. -/
def lookupsts (env : String → TxtOutcome) (domain : String) (delimiter : String) :
    Except DnsError (Nat × String) :=
  match env (stsQname domain) with
  | .success ans =>
      let txts := ans.map (fun r => String.join r)
      let txts := txts.filter is_sts
      .ok (indicator (txts.length != 0), String.intercalate delimiter txts)
  | .failure e =>
      if e.kind.benign then .ok (0, e.msg) else .error e

/-- The CSV record printed by line 131, field by field, plus the list of TLSA
query names issued while evaluating the domain (instrumentation for the
"exactly one TLSA query" property; the code issues a TLSA query exactly when
it calls `lookuptlsa`, line 118). -/
structure Row where
  domain : String
  has_mx : Nat
  has_mxauth : Nat
  has_mxtlsa : Nat
  has_smtpdane : Nat
  has_mtasts : Nat
  has_any : Nat
  mx_details : String
  mxtlsa_details : String
  mtasts_details : String
  tlsaQueries : List String
deriving DecidableEq, Repr

/-- Lines 115-121 of `lookupdomain`: if there is a valid MX, look up the TLSA
record of the preferred one (`mxs[0]`), otherwise skip the DANE lookup.
Returns `(mxdetails, mxtlsaflag, mxtlsadetails)` plus the list of TLSA query
names issued. -/
def mxtlsaStep (tlsaEnv : String → TlsaOutcome) (delimiter : String)
    (mxs : List String) (mxerror : String) :
    Except DnsError (String × Nat × String × List String) :=
  match mxs with
  | m :: _ =>
    match lookuptlsa tlsaEnv m 25 delimiter with
    | .error e => .error e
    | .ok (f, d) => .ok (String.intercalate delimiter mxs, f, d, [tlsaQname 25 m])
  | [] => .ok (mxerror, 0, "", [])

/-- Function `lookupdomain` (lines 110-131).  The Python code lets non-benign resolver
exceptions escape; this is modelled by propagating `.error` outward.
`indicator(mxauth and mxtlsaflag)` and `indicator(daneflag or stsflag)` apply
Python truthiness to ints, modelled by `!= 0` tests. -/
def lookupdomain (mxo : MxOutcome) (tlsaEnv : String → TlsaOutcome)
    (txtEnv : String → TxtOutcome) (domain : String) (delimiter : String) :
    Except DnsError Row :=
  match lookupmx mxo with
  | .error e => .error e
  | .ok (mxs, mxauth, mxerror) =>
    match mxtlsaStep tlsaEnv delimiter mxs mxerror with
    | .error e => .error e
    | .ok (mxdetails, mxtlsaflag, mxtlsadetails, queries) =>
      let daneflag := indicator (mxauth && (mxtlsaflag != 0))
      match lookupsts txtEnv domain delimiter with
      | .error e => .error e
      | .ok (stsflag, stsdetails) =>
        .ok { domain := domain
              has_mx := indicator (mxs.length != 0)
              has_mxauth := indicator mxauth
              has_mxtlsa := mxtlsaflag
              has_smtpdane := daneflag
              has_mtasts := stsflag
              has_any := indicator ((daneflag != 0) || (stsflag != 0))
              mx_details := mxdetails
              mxtlsa_details := mxtlsadetails
              mtasts_details := stsdetails
              tlsaQueries := queries }

/-- The combined order the spec describes: preference ascending, ties in
case-insensitive alphabetical order of the exchange name. -/
def mxLex (r s : MxRecord) : Prop :=
  r.preference < s.preference ∨ (r.preference = s.preference ∧ leName r s = true)

/-- The `records` component of the spec's `TlsaLookupResult`: the answer's
record texts (line 75), empty when the lookup failed. -/
def tlsaRecords : TlsaOutcome → List String
  | .success recs => recs
  | .failure _ => []

/-- The `records` component of the spec's `StsLookupResult`: the qualifying
TXT payloads of lines 103-105 (concatenated segments passing `is_sts`), empty
when the lookup failed. -/
def stsRecords : TxtOutcome → List String
  | .success ans => (ans.map String.join).filter is_sts
  | .failure _ => []

/-- A sample emitted record, used to instantiate hypotheses at concrete
inputs. -/
def rowC1 : Row :=
  ⟨"example.com", 1, 1, 1, 1, 0, 1, "mail.example.com.", "3 1 1 aabb", "nx",
    ["_25._tcp.mail.example.com."]⟩

theorem strLe_total : ∀ s t : List Char, (strLe s t || strLe t s) = true := by
  intro s
  induction s with
  | nil => intro t; simp [strLe]
  | cons a s ih =>
    intro t
    cases t with
    | nil => simp [strLe]
    | cons b t =>
      simp only [strLe]
      by_cases hab : a < b
      · simp [hab]
      · by_cases hba : b < a
        · simp [hab, hba]
        · simpa [hab, hba] using ih t

theorem strLe_trans : ∀ s t u : List Char, strLe s t = true → strLe t u = true → strLe s u = true := by
  intro s
  induction s with
  | nil => intro t u _ _; simp [strLe]
  | cons a s ih =>
    intro t u h1 h2
    cases t with
    | nil => simp [strLe] at h1
    | cons b t =>
      cases u with
      | nil => simp [strLe] at h2
      | cons c u =>
        simp only [strLe] at h1 h2 ⊢
        by_cases hab : a < b
        · by_cases hbc : b < c
          · simp [lt_trans hab hbc]
          · by_cases hcb : c < b
            · simp [hbc, hcb] at h2
            · have hbceq : b = c := le_antisymm (not_lt.mp hcb) (not_lt.mp hbc)
              subst hbceq
              simp [hab]
        · by_cases hba : b < a
          · simp [hab, hba] at h1
          · have habeq : a = b := le_antisymm (not_lt.mp hba) (not_lt.mp hab)
            subst habeq
            simp [hab] at h1
            by_cases hac : a < c
            · simp [hac]
            · by_cases hca : c < a
              · simp [hac, hca] at h2
              · simp [hac, hca] at h2 ⊢
                exact ih t u h1 h2

theorem leName_trans (r s t : MxRecord) (h1 : leName r s) (h2 : leName s t) : leName r t :=
  strLe_trans _ _ _ h1 h2

theorem leName_total (r s : MxRecord) : (leName r s || leName s r) = true :=
  strLe_total _ _

theorem lePref_trans (r s t : MxRecord) (h1 : lePref r s) (h2 : lePref s t) : lePref r t := by
  simp only [lePref, decide_eq_true_eq] at *
  omega

theorem lePref_total (r s : MxRecord) : (lePref r s || lePref s r) = true := by
  simp only [lePref, Bool.or_eq_true, decide_eq_true_eq]
  omega

theorem mxLex_pref {r s : MxRecord} (h : mxLex r s) : r.preference ≤ s.preference := by
  rcases h with h | ⟨h, -⟩
  · exact Nat.le_of_lt h
  · exact Nat.le_of_eq h

theorem merge_pairwise_mxLex :
    ∀ (xs ys : List MxRecord), xs.Pairwise mxLex → ys.Pairwise mxLex →
      (∀ x ∈ xs, ∀ y ∈ ys, leName x y = true) →
      (List.merge xs ys lePref).Pairwise mxLex := by
  intro xs
  induction xs with
  | nil => intro ys _ hys _; simpa using hys
  | cons x xs ihx =>
    intro ys
    induction ys with
    | nil => intro hxs _ _; simpa using hxs
    | cons y ys ihy =>
      intro hxs hys hcross
      by_cases hxy : lePref x y = true
      · rw [List.cons_merge_cons_pos _ _ _ hxy]
        rw [List.pairwise_cons]
        constructor
        · intro z hz
          rw [List.mem_merge] at hz
          rcases hz with hz | hz
          · exact (List.pairwise_cons.mp hxs).1 z hz
          · have hpxy : x.preference ≤ y.preference := by
              simpa [lePref] using hxy
            have hpyz : y.preference ≤ z.preference := by
              rcases List.mem_cons.mp hz with rfl | hz
              · exact le_refl _
              · exact mxLex_pref ((List.pairwise_cons.mp hys).1 z hz)
            have hname : leName x z = true := hcross x (List.mem_cons_self x xs) z hz
            rcases Nat.lt_or_ge x.preference z.preference with hlt | hge
            · exact Or.inl hlt
            · exact Or.inr ⟨Nat.le_antisymm (Nat.le_trans hpxy hpyz) hge, hname⟩
        · exact ihx (y :: ys) (List.pairwise_cons.mp hxs).2 hys
            (fun a ha b hb => hcross a (List.mem_cons_of_mem x ha) b hb)
      · have hxy' : lePref x y = false := by
          simpa using hxy
        rw [List.cons_merge_cons_neg _ _ _ (by simp [hxy'])]
        rw [List.pairwise_cons]
        have hpyx : y.preference < x.preference := by
          have : ¬ (x.preference ≤ y.preference) := by
            simpa [lePref] using hxy
          omega
        constructor
        · intro z hz
          rw [List.mem_merge] at hz
          rcases hz with hz | hz
          · have hpxz : x.preference ≤ z.preference := by
              rcases List.mem_cons.mp hz with rfl | hz
              · exact le_refl _
              · exact mxLex_pref ((List.pairwise_cons.mp hxs).1 z hz)
            exact Or.inl (Nat.lt_of_lt_of_le hpyx hpxz)
          · exact (List.pairwise_cons.mp hys).1 z hz
        · exact ihy hxs (List.pairwise_cons.mp hys).2
            (fun a ha b hb => hcross a ha b (List.mem_cons_of_mem y hb))

theorem mergeSort_lePref_pairwise :
    ∀ (l : List MxRecord), l.Pairwise (fun r s => leName r s = true) →
      (List.mergeSort l lePref).Pairwise mxLex
  | [], _ => by simp
  | [a], _ => by simp
  | a :: b :: xs, h => by
    have h1 : (List.splitInTwo ⟨a :: b :: xs, rfl⟩).1.1.length < xs.length + 1 + 1 := by
      simp [List.splitInTwo_fst]; omega
    have h2 : (List.splitInTwo ⟨a :: b :: xs, rfl⟩).2.1.length < xs.length + 1 + 1 := by
      simp [List.splitInTwo_snd]; omega
    rw [List.mergeSort]
    apply merge_pairwise_mxLex
    · exact mergeSort_lePref_pairwise _ (List.splitInTwo_fst_sorted ⟨a :: b :: xs, rfl⟩ h)
    · exact mergeSort_lePref_pairwise _ (List.splitInTwo_snd_sorted ⟨a :: b :: xs, rfl⟩ h)
    · intro x hx y hy
      exact List.splitInTwo_fst_le_splitInTwo_snd h x y (List.mem_mergeSort.mp hx) (List.mem_mergeSort.mp hy)
termination_by l => l.length

theorem sortRecords_pairwise (ans : List MxRecord) :
    (sortRecords ans).Pairwise mxLex := by
  unfold sortRecords
  apply mergeSort_lePref_pairwise
  exact List.sorted_mergeSort (fun a b c => leName_trans a b c) (fun a b => leName_total a b) ans

theorem sortRecords_perm (ans : List MxRecord) : (sortRecords ans).Perm ans := by
  unfold sortRecords
  exact (List.mergeSort_perm _ _).trans (List.mergeSort_perm _ _)

theorem indicator01 (b : Bool) : indicator b = 0 ∨ indicator b = 1 := by
  cases b <;> simp [indicator]

theorem lookuptlsa_ok_flag {env : String → TlsaOutcome} {d : String} {p : Nat}
    {delim : String} {f : Nat} {s : String}
    (h : lookuptlsa env d p delim = .ok (f, s)) : f = 0 ∨ f = 1 := by
  unfold lookuptlsa at h
  split at h
  · simp only [Except.ok.injEq, Prod.mk.injEq] at h
    exact Or.inr h.1.symm
  · split at h
    · simp only [Except.ok.injEq, Prod.mk.injEq] at h
      exact Or.inl h.1.symm
    · exact absurd h (by simp)

theorem mxtlsaStep_ok_flag {tlsaEnv : String → TlsaOutcome} {delim : String}
    {mxs : List String} {mxerror md d : String} {f : Nat} {qs : List String}
    (h : mxtlsaStep tlsaEnv delim mxs mxerror = .ok (md, f, d, qs)) : f = 0 ∨ f = 1 := by
  unfold mxtlsaStep at h
  split at h
  · split at h
    · exact absurd h (by simp)
    · rename_i heq
      simp only [Except.ok.injEq, Prod.mk.injEq] at h
      obtain ⟨-, hf, -, -⟩ := h
      subst hf
      exact lookuptlsa_ok_flag heq
  · simp only [Except.ok.injEq, Prod.mk.injEq] at h
    exact Or.inl h.2.1.symm

theorem lookupsts_ok_flag {env : String → TxtOutcome} {d delim s : String} {f : Nat}
    (h : lookupsts env d delim = .ok (f, s)) : f = 0 ∨ f = 1 := by
  unfold lookupsts at h
  split at h
  · simp only [Except.ok.injEq, Prod.mk.injEq] at h
    exact h.1 ▸ indicator01 _
  · split at h
    · simp only [Except.ok.injEq, Prod.mk.injEq] at h
      exact Or.inl h.1.symm
    · exact absurd h (by simp)

/-- C3: the MX validity filter rejects exactly `.`, `0.0.0.0.` and
`localhost.`; every other name is retained. -/
theorem validmx_rejects_exactly_three (mx : String) :
    validmx mx = false ↔ (mx = "." ∨ mx = "0.0.0.0." ∨ mx = "localhost.") := by
  unfold validmx
  split <;> simp_all

/-- C1: in every emitted record, `has_smtpdane = 1` iff both `has_mxauth = 1`
and `has_mxtlsa = 1`, and `has_any = 1` iff `has_smtpdane = 1` or
`has_mtasts = 1` (equivalently `has_any = 0` iff both are `0`). -/
theorem composite_indicators_derivation {mxo : MxOutcome} {tlsaEnv : String → TlsaOutcome}
    {txtEnv : String → TxtOutcome} {domain delimiter : String} {row : Row}
    (h : lookupdomain mxo tlsaEnv txtEnv domain delimiter = .ok row) :
    (row.has_smtpdane = 1 ↔ (row.has_mxauth = 1 ∧ row.has_mxtlsa = 1)) ∧
    (row.has_smtpdane = 0 ↔ (row.has_mxauth = 0 ∨ row.has_mxtlsa = 0)) ∧
    (row.has_any = 1 ↔ (row.has_smtpdane = 1 ∨ row.has_mtasts = 1)) ∧
    (row.has_any = 0 ↔ (row.has_smtpdane = 0 ∧ row.has_mtasts = 0)) := by
  unfold lookupdomain at h
  split at h
  · exact absurd h (by simp)
  · rename_i mxs mxauth mxerror heqmx
    split at h
    · exact absurd h (by simp)
    · rename_i mxdetails mxtlsaflag mxtlsadetails queries hstep
      split at h
      · exact absurd h (by simp)
      · rename_i stsflag stsdetails hsts
        injection h with h
        subst h
        rcases mxtlsaStep_ok_flag hstep with hf | hf <;>
          rcases lookupsts_ok_flag hsts with hs | hs <;>
            subst hf <;> subst hs <;> cases mxauth <;> simp [indicator]

unseal List.merge List.mergeSort in
theorem composite_indicators_derivation_witness :
    (rowC1.has_smtpdane = 1 ↔ (rowC1.has_mxauth = 1 ∧ rowC1.has_mxtlsa = 1)) ∧
    (rowC1.has_smtpdane = 0 ↔ (rowC1.has_mxauth = 0 ∨ rowC1.has_mxtlsa = 0)) ∧
    (rowC1.has_any = 1 ↔ (rowC1.has_smtpdane = 1 ∨ rowC1.has_mtasts = 1)) ∧
    (rowC1.has_any = 0 ↔ (rowC1.has_smtpdane = 0 ∧ rowC1.has_mtasts = 0)) :=
  @composite_indicators_derivation (.success [⟨0, "Mail.Example.COM."⟩] true)
    (fun q => if q = "_25._tcp.mail.example.com." then .success ["3 1 1 aabb"]
              else .failure ⟨.noAnswer, "na"⟩)
    (fun _ => .failure ⟨.nxdomain, "nx"⟩) "example.com" "; " rowC1 rfl

/-- C6: for each of the three lookups, a resolver failure of one of the four
benign kinds (no answer, NXDOMAIN, no nameservers, timeout) is caught and
turned into an empty/zero result carrying the error text, while any other
failure propagates (`.error`).  The first conjunct pins down that the benign
kinds are exactly the four listed ones. -/
theorem benign_errors_caught_others_propagate (e : DnsError) (dom delim : String)
    (port : Nat) (tlsaEnv : String → TlsaOutcome) (txtEnv : String → TxtOutcome)
    (h1 : tlsaEnv (tlsaQname port dom) = .failure e)
    (h2 : txtEnv (stsQname dom) = .failure e) :
    (e.kind.benign = true ↔ (e.kind = .noAnswer ∨ e.kind = .nxdomain ∨
        e.kind = .noNameservers ∨ e.kind = .lifetimeTimeout)) ∧
    lookupmx (.failure e) = (if e.kind.benign then .ok ([], false, e.msg) else .error e) ∧
    lookuptlsa tlsaEnv dom port delim = (if e.kind.benign then .ok (0, e.msg) else .error e) ∧
    lookupsts txtEnv dom delim = (if e.kind.benign then .ok (0, e.msg) else .error e) := by
  refine ⟨?_, rfl, ?_, ?_⟩
  · cases e.kind <;> simp [ExcKind.benign]
  · unfold lookuptlsa
    rw [h1]
  · unfold lookupsts
    rw [h2]

theorem benign_errors_caught_others_propagate_witness :
    ((ExcKind.benign .nxdomain = true ↔ (ExcKind.nxdomain = .noAnswer ∨ ExcKind.nxdomain = .nxdomain ∨
        ExcKind.nxdomain = .noNameservers ∨ ExcKind.nxdomain = .lifetimeTimeout)) ∧
      lookupmx (.failure ⟨.nxdomain, "nx"⟩) =
        (if ExcKind.benign .nxdomain then .ok ([], false, "nx") else .error ⟨.nxdomain, "nx"⟩) ∧
      lookuptlsa (fun _ => .failure ⟨.nxdomain, "nx"⟩) "example.com" 25 "; " =
        (if ExcKind.benign .nxdomain then .ok (0, "nx") else .error ⟨.nxdomain, "nx"⟩) ∧
      lookupsts (fun _ => .failure ⟨.nxdomain, "nx"⟩) "example.com" "; " =
        (if ExcKind.benign .nxdomain then .ok (0, "nx") else .error ⟨.nxdomain, "nx"⟩)) ∧
    ((ExcKind.benign .other = true ↔ (ExcKind.other = .noAnswer ∨ ExcKind.other = .nxdomain ∨
        ExcKind.other = .noNameservers ∨ ExcKind.other = .lifetimeTimeout)) ∧
      lookupmx (.failure ⟨.other, "boom"⟩) =
        (if ExcKind.benign .other then .ok ([], false, "boom") else .error ⟨.other, "boom"⟩) ∧
      lookuptlsa (fun _ => .failure ⟨.other, "boom"⟩) "example.com" 25 "; " =
        (if ExcKind.benign .other then .ok (0, "boom") else .error ⟨.other, "boom"⟩) ∧
      lookupsts (fun _ => .failure ⟨.other, "boom"⟩) "example.com" "; " =
        (if ExcKind.benign .other then .ok (0, "boom") else .error ⟨.other, "boom"⟩)) :=
  ⟨@benign_errors_caught_others_propagate ⟨.nxdomain, "nx"⟩ "example.com" "; " 25
      (fun _ => .failure ⟨.nxdomain, "nx"⟩) (fun _ => .failure ⟨.nxdomain, "nx"⟩) rfl rfl,
    @benign_errors_caught_others_propagate ⟨.other, "boom"⟩ "example.com" "; " 25
      (fun _ => .failure ⟨.other, "boom"⟩) (fun _ => .failure ⟨.other, "boom"⟩) rfl rfl⟩

/-- C2 counterexample: when MX resolution fails (zero valid exchanges), the
code sets `mxtlsadetails` to the EMPTY string (line 121), not to the captured
MX error text; the MX error text goes into `mx_details` (line 120).  Here the
MX error text is nonempty, so the claimed equality fails. -/
theorem dane_detail_on_skip_counterexample :
    (lookupdomain (.failure ⟨.nxdomain, "The DNS query name does not exist: nomx.example."⟩)
        (fun _ => .failure ⟨.noAnswer, "na"⟩) (fun _ => .failure ⟨.noAnswer, "na"⟩)
        "nomx.example" "; ").map
        (fun r => (r.has_mxtlsa, r.mxtlsa_details, r.mx_details, r.tlsaQueries)) =
      .ok (0, "", "The DNS query name does not exist: nomx.example.", []) ∧
    ("" : String) ≠ "The DNS query name does not exist: nomx.example." := by
  refine ⟨rfl, ?_⟩
  decide

/-- C2 amended: whenever MX resolution yields zero valid exchanges, the DANE
lookup is skipped (no TLSA query is issued), `has_mxtlsa = 0`, and the DANE
(`mxtlsa`) detail string is the EMPTY string, while the captured MX error text
is carried in the MX detail string instead. -/
theorem dane_skip_amended {mxo : MxOutcome} {tlsaEnv : String → TlsaOutcome}
    {txtEnv : String → TxtOutcome} {domain delimiter : String} {row : Row}
    {mxauth : Bool} {mxerror : String}
    (hmx : lookupmx mxo = .ok ([], mxauth, mxerror))
    (h : lookupdomain mxo tlsaEnv txtEnv domain delimiter = .ok row) :
    row.has_mxtlsa = 0 ∧ row.mxtlsa_details = "" ∧ row.mx_details = mxerror ∧
    row.tlsaQueries = [] := by
  unfold lookupdomain at h
  rw [hmx] at h
  simp only [mxtlsaStep] at h
  split at h
  · exact absurd h (by simp)
  · rename_i stsflag stsdetails hsts
    injection h with h
    subst h
    simp

unseal List.merge List.mergeSort in
theorem dane_skip_amended_witness :
    (Row.has_mxtlsa ⟨"nomx.example", 0, 0, 0, 0, 0, 0,
        "The DNS query name does not exist: nomx.example.", "", "na", []⟩ = 0) ∧
    (Row.mxtlsa_details ⟨"nomx.example", 0, 0, 0, 0, 0, 0,
        "The DNS query name does not exist: nomx.example.", "", "na", []⟩ = "") ∧
    (Row.mx_details ⟨"nomx.example", 0, 0, 0, 0, 0, 0,
        "The DNS query name does not exist: nomx.example.", "", "na", []⟩ =
      "The DNS query name does not exist: nomx.example.") ∧
    (Row.tlsaQueries ⟨"nomx.example", 0, 0, 0, 0, 0, 0,
        "The DNS query name does not exist: nomx.example.", "", "na", []⟩ = []) :=
  @dane_skip_amended (.failure ⟨.nxdomain, "The DNS query name does not exist: nomx.example."⟩)
    (fun _ => .failure ⟨.noAnswer, "na"⟩) (fun _ => .failure ⟨.noAnswer, "na"⟩)
    "nomx.example" "; "
    ⟨"nomx.example", 0, 0, 0, 0, 0, 0,
      "The DNS query name does not exist: nomx.example.", "", "na", []⟩
    false "The DNS query name does not exist: nomx.example." rfl rfl

theorem noValidMX_ne_empty (x : String) : "no valid MX: " ++ x ≠ "" := by
  intro h
  have h2 : ("no valid MX: " ++ x).data = ("" : String).data := congrArg String.data h
  rw [String.data_append] at h2
  have h3 : ("no valid MX: " : String).data ≠ [] := by decide
  simp only [List.append_eq_nil] at h2
  exact absurd h2.1 h3

/-- C5: for every non-propagating MX resolution result, the error text is
nonempty iff the list of valid exchanges is empty (assuming resolver exception
messages are nonempty, as dnspython's are); and when an answer existed but all
its records were filtered out, the error text lists the rejected
(lowercased, sorted) values after the marker `no valid MX: `. -/
theorem mx_error_iff_no_valid_exchange {o : MxOutcome} {mxs : List String}
    {auth : Bool} {err : String}
    (hmsg : ∀ e, o = .failure e → e.msg ≠ "")
    (h : lookupmx o = .ok (mxs, auth, err)) :
    (err ≠ "" ↔ mxs = []) ∧
    (∀ ans ad, o = .success ans ad → mxs = [] →
      err = "no valid MX: " ++
        String.intercalate (", ") ((sortRecords ans).map (fun r => pyLower r.exchange))) := by
  cases o with
  | success ans ad =>
    simp only [lookupmx] at h
    simp only [Except.ok.injEq, Prod.mk.injEq] at h
    obtain ⟨h1, -, h3⟩ := h
    by_cases hlen :
        (((sortRecords ans).map (fun r => pyLower r.exchange)).filter validmx).length = 0
    · rw [if_pos hlen] at h3
      have hnil : ((sortRecords ans).map (fun r => pyLower r.exchange)).filter validmx = [] :=
        List.length_eq_zero.mp hlen
      constructor
      · constructor
        · intro _
          rw [← h1, hnil]
        · intro _
          rw [← h3]
          exact noValidMX_ne_empty _
      · intro ans' ad' heq _
        injection heq with heq1 heq2
        subst heq1
        exact h3.symm
    · rw [if_neg hlen] at h3
      constructor
      · constructor
        · intro hne
          exact absurd h3.symm hne
        · intro hmxs
          rw [hmxs] at h1
          exact absurd (by simp [h1]) hlen
      · intro ans' ad' heq hmxs
        injection heq with heq1 heq2
        subst heq1
        rw [hmxs] at h1
        exact absurd (by simp [h1]) hlen
  | failure e =>
    simp only [lookupmx] at h
    split at h
    · simp only [Except.ok.injEq, Prod.mk.injEq] at h
      obtain ⟨h1, -, h3⟩ := h
      refine ⟨⟨fun _ => h1.symm, fun _ => h3 ▸ hmsg e rfl⟩, ?_⟩
      intro ans' ad' heq
      exact absurd heq (by simp)
    · exact absurd h (by simp)

unseal List.merge List.mergeSort in
theorem mx_error_iff_no_valid_exchange_witness :
    (("no valid MX: 0.0.0.0., localhost." : String) ≠ "" ↔ ([] : List String) = []) ∧
    (∀ ans ad, (MxOutcome.success [⟨20, "localhost."⟩, ⟨10, "0.0.0.0."⟩] true) = .success ans ad →
      ([] : List String) = [] →
      ("no valid MX: 0.0.0.0., localhost." : String) = "no valid MX: " ++
        String.intercalate (", ") ((sortRecords ans).map (fun r => pyLower r.exchange))) :=
  @mx_error_iff_no_valid_exchange (.success [⟨20, "localhost."⟩, ⟨10, "0.0.0.0."⟩] true)
    [] true "no valid MX: 0.0.0.0., localhost."
    (fun e he => by exact absurd he (by simp)) rfl

unseal List.merge List.mergeSort in
/-- C4: for every MX answer, the records are arranged by preference ascending
with equal-preference records in case-insensitive alphabetical order of
exchange name (`mxLex`), as a permutation of the answer; and on the spec's
example `[(10, b.example.com), (10, a.example.com), (5, c.example.com)]` the
resolved order is `[c.example.com, a.example.com, b.example.com]`. -/
theorem mx_sort_preference_then_name (ans : List MxRecord) :
    (sortRecords ans).Pairwise mxLex ∧
    (sortRecords ans).Perm ans ∧
    (lookupmx (.success
        [⟨10, "b.example.com"⟩, ⟨10, "a.example.com"⟩, ⟨5, "c.example.com"⟩] true)).map
        (fun t => t.1) =
      .ok ["c.example.com", "a.example.com", "b.example.com"] :=
  ⟨sortRecords_pairwise ans, sortRecords_perm ans, rfl⟩

theorem indicator_eq_one {b : Bool} : indicator b = 1 ↔ b = true := by
  cases b <;> simp [indicator]

/-- C7: TXT character-string segments are concatenated into one policy string
before interpretation, a record is retained iff its concatenated text
case-insensitively starts with `v=stsv1`, and `found = 1` iff at least one
record is retained; the spec's segment example evaluates as stated. -/
theorem sts_concat_filter_found {env : String → TxtOutcome} {dom delim : String}
    {ans : List (List String)} {f : Nat} {d : String}
    (hans : env (stsQname dom) = .success ans)
    (h : lookupsts env dom delim = .ok (f, d)) :
    (f = 1 ↔ ∃ r ∈ ans, is_sts (String.join r) = true) ∧
    d = String.intercalate delim ((ans.map String.join).filter is_sts) ∧
    (String.join ["v=STSv1; id=20231", ""] = "v=STSv1; id=20231" ∧
      is_sts ("v=STSv1; id=20231") = true ∧ is_sts ("spf-only-record") = false) ∧
    lookupsts (fun _ => .success [["v=STSv1; id=20231", ""], ["spf-only-record"]]) dom delim =
      .ok (1, "v=STSv1; id=20231") := by
  unfold lookupsts at h
  rw [hans] at h
  simp only [Except.ok.injEq, Prod.mk.injEq] at h
  obtain ⟨hf, hd⟩ := h
  refine ⟨?_, hd.symm, by refine ⟨rfl, by decide, by decide⟩, rfl⟩
  rw [← hf, indicator_eq_one]
  simp only [bne_iff_ne, ne_eq, List.length_eq_zero, List.filter_eq_nil_iff, List.mem_map,
    not_forall]
  constructor
  · intro hex
    obtain ⟨x, hx, hsts⟩ := hex
    obtain ⟨r, hr, rfl⟩ := hx
    exact ⟨r, hr, by simpa using hsts⟩
  · intro hex
    obtain ⟨r, hr, hsts⟩ := hex
    exact ⟨String.join r, ⟨r, hr, rfl⟩, by simpa using hsts⟩

theorem sts_concat_filter_found_witness :
    (((1 : Nat) = 1 ↔ ∃ r ∈ [["v=STSv1; id=20231", ""], ["spf-only-record"]],
        is_sts (String.join r) = true) ∧
      ("v=STSv1; id=20231" : String) = String.intercalate ("; ")
        (([["v=STSv1; id=20231", ""], ["spf-only-record"]].map String.join).filter is_sts) ∧
      (String.join ["v=STSv1; id=20231", ""] = "v=STSv1; id=20231" ∧
        is_sts ("v=STSv1; id=20231") = true ∧ is_sts ("spf-only-record") = false) ∧
      lookupsts (fun _ => .success [["v=STSv1; id=20231", ""], ["spf-only-record"]])
          "example.com" "; " =
        .ok (1, "v=STSv1; id=20231")) :=
  @sts_concat_filter_found (fun _ => .success [["v=STSv1; id=20231", ""], ["spf-only-record"]])
    "example.com" "; " [["v=STSv1; id=20231", ""], ["spf-only-record"]] 1 "v=STSv1; id=20231"
    rfl rfl

theorem intercalate_go_leads : ∀ (ts : List String) (acc delim : String),
    List.IsPrefix acc.data (String.intercalate.go acc delim ts).data
  | [], acc, delim => by
    simp [String.intercalate.go]
  | a :: as, acc, delim => by
    rw [String.intercalate.go]
    refine List.IsPrefix.trans ?_ (intercalate_go_leads as (acc ++ delim ++ a) delim)
    rw [String.data_append, String.data_append]
    exact (List.prefix_append acc.data delim.data).trans
      (List.prefix_append (acc.data ++ delim.data) a.data)

theorem intercalate_ne_empty {delim t : String} {ts : List String} (ht : t ≠ "") :
    String.intercalate delim (t :: ts) ≠ "" := by
  intro h
  have h2 : String.intercalate.go t delim ts = "" := h
  have hp := intercalate_go_leads ts t delim
  rw [h2] at hp
  exact ht (String.ext (List.prefix_nil.mp hp))

theorem is_sts_ne_empty {t : String} (h : is_sts t = true) : t ≠ "" := by
  intro he
  subst he
  exact absurd h (by decide)

/-- C8: for both the TLSA and the MTA-STS lookup, the found flag is 1 exactly
when the record sequence is non-empty (for TLSA under dnspython's guarantee
that a successful answer is a non-empty list of non-empty record texts), and
in the success cases the flag is 1 exactly when the joined record text is
non-empty. -/
theorem found_iff_records_nonempty {tenv : String → TlsaOutcome} {senv : String → TxtOutcome}
    {dom delim : String} {port : Nat} {f1 f2 : Nat} {d1 d2 : String}
    (hne : ∀ recs, tenv (tlsaQname port dom) = .success recs →
      recs ≠ [] ∧ ∀ r ∈ recs, r ≠ "")
    (h1 : lookuptlsa tenv dom port delim = .ok (f1, d1))
    (h2 : lookupsts senv dom delim = .ok (f2, d2)) :
    (f1 = 1 ↔ tlsaRecords (tenv (tlsaQname port dom)) ≠ []) ∧
    (∀ recs, tenv (tlsaQname port dom) = .success recs → f1 = 1 ∧ d1 ≠ "") ∧
    (f2 = 1 ↔ stsRecords (senv (stsQname dom)) ≠ []) ∧
    (∀ ans, senv (stsQname dom) = .success ans → (f2 = 1 ↔ d2 ≠ "")) := by
  refine ⟨?_, ?_, ?_, ?_⟩
  · unfold lookuptlsa at h1
    split at h1
    · rename_i recs heq
      simp only [Except.ok.injEq, Prod.mk.injEq] at h1
      rw [heq] at hne ⊢
      simp only [tlsaRecords]
      exact ⟨fun _ => (hne recs rfl).1, fun _ => h1.1.symm⟩
    · rename_i e heq
      split at h1
      · simp only [Except.ok.injEq, Prod.mk.injEq] at h1
        rw [heq]
        simp only [tlsaRecords]
        constructor
        · intro hf
          rw [← h1.1] at hf
          exact absurd hf (by decide)
        · intro hf
          exact absurd rfl hf
      · exact absurd h1 (by simp)
  · intro recs heq
    unfold lookuptlsa at h1
    rw [heq] at h1
    simp only [Except.ok.injEq, Prod.mk.injEq] at h1
    obtain ⟨hf, hd⟩ := h1
    obtain ⟨hrecs, hrne⟩ := hne recs heq
    refine ⟨hf.symm, ?_⟩
    cases recs with
    | nil => exact absurd rfl hrecs
    | cons t ts =>
      rw [← hd]
      exact intercalate_ne_empty (hrne t (List.mem_cons_self t ts))
  · unfold lookupsts at h2
    split at h2
    · rename_i ans heq
      simp only [Except.ok.injEq, Prod.mk.injEq] at h2
      rw [heq]
      simp only [stsRecords]
      rw [← h2.1, indicator_eq_one]
      simp [List.length_eq_zero]
    · rename_i e heq
      split at h2
      · simp only [Except.ok.injEq, Prod.mk.injEq] at h2
        rw [heq]
        simp only [stsRecords]
        constructor
        · intro hf
          rw [← h2.1] at hf
          exact absurd hf (by decide)
        · intro hf
          exact absurd rfl hf
      · exact absurd h2 (by simp)
  · intro ans heq
    unfold lookupsts at h2
    rw [heq] at h2
    simp only [Except.ok.injEq, Prod.mk.injEq] at h2
    obtain ⟨hf, hd⟩ := h2
    rw [← hf, ← hd, indicator_eq_one]
    simp only [bne_iff_ne, ne_eq, List.length_eq_zero]
    constructor
    · intro hfil
      match hml : (ans.map String.join).filter is_sts with
      | [] => exact absurd hml hfil
      | t :: ts =>
        have hmem : t ∈ (ans.map String.join).filter is_sts := by
          rw [hml]; exact List.mem_cons_self t ts
        have hsts := List.of_mem_filter hmem
        exact intercalate_ne_empty (is_sts_ne_empty hsts)
    · intro hs hfil
      rw [hfil] at hs
      exact hs rfl

theorem found_iff_records_nonempty_witness :
    ((1 : Nat) = 1 ↔ tlsaRecords (.success ["3 1 1 ab"]) ≠ []) ∧
    (∀ recs, (TlsaOutcome.success ["3 1 1 ab"] : TlsaOutcome) = .success recs →
        (1 : Nat) = 1 ∧ ("3 1 1 ab" : String) ≠ "") ∧
    ((1 : Nat) = 1 ↔ stsRecords (.success [["v=STSv1"]]) ≠ []) ∧
    (∀ ans, (TxtOutcome.success [["v=STSv1"]] : TxtOutcome) = .success ans →
        ((1 : Nat) = 1 ↔ ("v=STSv1" : String) ≠ "")) :=
  @found_iff_records_nonempty (fun _ => .success ["3 1 1 ab"]) (fun _ => .success [["v=STSv1"]])
    "example.com" "; " 25 1 1 "3 1 1 ab" "v=STSv1"
    (fun recs h => by
      injection h with h2
      subst h2
      exact ⟨by decide, by decide⟩)
    rfl rfl

theorem mxtlsaStep_cons {tlsaEnv : String → TlsaOutcome} {delim m mxerror md d : String}
    {rest : List String} {f : Nat} {qs : List String}
    (h : mxtlsaStep tlsaEnv delim (m :: rest) mxerror = .ok (md, f, d, qs)) :
    lookuptlsa tlsaEnv m 25 delim = .ok (f, d) ∧
    md = String.intercalate delim (m :: rest) ∧ qs = [tlsaQname 25 m] := by
  have h2 : (match lookuptlsa tlsaEnv m 25 delim with
      | .error e => (.error e : Except DnsError (String × Nat × String × List String))
      | .ok (f2, d2) =>
        .ok (String.intercalate delim (m :: rest), f2, d2, [tlsaQname 25 m])) =
      .ok (md, f, d, qs) := h
  clear h
  split at h2
  · exact absurd h2 (by simp)
  · rename_i f2 d2 heq
    simp only [Except.ok.injEq, Prod.mk.injEq] at h2
    obtain ⟨hmd, hf, hd, hq⟩ := h2
    subst hf hd
    exact ⟨heq, hmd.symm, hq.symm⟩

/-- C9: when MX resolution yields valid exchanges, exactly one TLSA query is
issued, at `_25._tcp.<m>` for the single most-preferred (first) exchange `m`;
and a TLSA answer there makes `has_mxtlsa = 1` with the records joined by the
delimiter as detail. -/
theorem tlsa_single_query_preferred_mx {mxo : MxOutcome} {tlsaEnv : String → TlsaOutcome}
    {txtEnv : String → TxtOutcome} {dom delim m : String} {rest : List String}
    {auth : Bool} {err : String} {row : Row}
    (hmx : lookupmx mxo = .ok (m :: rest, auth, err))
    (h : lookupdomain mxo tlsaEnv txtEnv dom delim = .ok row) :
    row.tlsaQueries = [tlsaQname 25 m] ∧
    tlsaQname 25 m = "_25._tcp." ++ m ∧
    (∀ recs, tlsaEnv (tlsaQname 25 m) = .success recs →
      row.has_mxtlsa = 1 ∧ row.mxtlsa_details = String.intercalate delim recs) := by
  unfold lookupdomain at h
  split at h
  · exact absurd h (by simp)
  · rename_i mxs mxauth mxerror heqmx
    rw [heqmx] at hmx
    simp only [Except.ok.injEq, Prod.mk.injEq] at hmx
    obtain ⟨hmxs, hauth, herr⟩ := hmx
    subst hmxs hauth herr
    split at h
    · exact absurd h (by simp)
    · rename_i md f d qs hstep
      obtain ⟨htl, hmd, hq⟩ := mxtlsaStep_cons hstep
      split at h
      · exact absurd h (by simp)
      · rename_i sf sd hsts
        injection h with h
        subst h
        refine ⟨hq, rfl, ?_⟩
        intro recs hrec
        unfold lookuptlsa at htl
        rw [hrec] at htl
        simp only [Except.ok.injEq, Prod.mk.injEq] at htl
        exact ⟨htl.1.symm, htl.2.symm⟩

unseal List.merge List.mergeSort in
theorem tlsa_single_query_preferred_mx_witness :
    (Row.tlsaQueries ⟨"example.com", 1, 1, 1, 1, 0, 1, "mail.example.com.", "3 1 1 ab", "nx",
        ["_25._tcp.mail.example.com."]⟩ = [tlsaQname 25 "mail.example.com."]) ∧
    tlsaQname 25 "mail.example.com." = "_25._tcp." ++ "mail.example.com." ∧
    (∀ recs, (fun q => if q = "_25._tcp.mail.example.com." then
          TlsaOutcome.success ["3 1 1 ab"] else .failure ⟨.noAnswer, "na"⟩)
        (tlsaQname 25 "mail.example.com.") = .success recs →
      Row.has_mxtlsa ⟨"example.com", 1, 1, 1, 1, 0, 1, "mail.example.com.", "3 1 1 ab", "nx",
        ["_25._tcp.mail.example.com."]⟩ = 1 ∧
      Row.mxtlsa_details ⟨"example.com", 1, 1, 1, 1, 0, 1, "mail.example.com.", "3 1 1 ab", "nx",
        ["_25._tcp.mail.example.com."]⟩ = String.intercalate ("; ") recs) :=
  @tlsa_single_query_preferred_mx (.success [⟨0, "Mail.Example.COM."⟩] true)
    (fun q => if q = "_25._tcp.mail.example.com." then .success ["3 1 1 ab"]
              else .failure ⟨.noAnswer, "na"⟩)
    (fun _ => .failure ⟨.nxdomain, "nx"⟩) "example.com" "; " "mail.example.com." []
    true "" ⟨"example.com", 1, 1, 1, 1, 0, 1, "mail.example.com.", "3 1 1 ab", "nx",
      ["_25._tcp.mail.example.com."]⟩ rfl rfl

unseal List.merge List.mergeSort in
/-- C10: the authenticated flag is read from the response's AD flag before and
independently of validity filtering: for every successful answer the returned
flag equals the AD flag, and for an authenticated answer whose exchanges are
all invalid the emitted record has `has_mx = 0` with `has_mxauth = 1` while
`has_mxtlsa = 0` and `has_smtpdane = 0`. -/
theorem ad_flag_independent_of_filter :
    (∀ (ans : List MxRecord) (ad : Bool) (mxs : List String) (auth : Bool) (err : String),
        lookupmx (.success ans ad) = .ok (mxs, auth, err) → auth = ad) ∧
    (lookupdomain (.success [⟨10, "."⟩] true) (fun _ => .failure ⟨.noAnswer, "na"⟩)
        (fun _ => .failure ⟨.noAnswer, "nb"⟩) "example.com" "; ").map
        (fun r => (r.has_mx, r.has_mxauth, r.has_mxtlsa, r.has_smtpdane)) =
      .ok (0, 1, 0, 0) := by
  constructor
  · intro ans ad mxs auth err h
    simp only [lookupmx] at h
    simp only [Except.ok.injEq, Prod.mk.injEq] at h
    exact h.2.1.symm
  · rfl

unseal List.merge List.mergeSort in
theorem ad_flag_independent_of_filter_witness : (true : Bool) = true :=
  ad_flag_independent_of_filter.1 [⟨10, "."⟩] true [] true "no valid MX: ." rfl


end SmtpDane
